import Mathlib

/-!
# VRPlayspaceMover: the per-frame offset pipeline

A shallow embedding of `src/PlayspaceMover/PlayspaceMover.cpp`:
`updateVirtualDevices`, `isVirtualDevice`, `updateOffset` and `Move`, together
with the few glm operations they call (`glm::clamp`, `glm::translate`,
`glm::inverse`, the matrix-vector products and the implicit `vec4 -> vec3`
truncation).

The glm and OpenVR headers are not part of the repository. The glm
operations are transcribed from the glm library (`operator*` of
`type_mat4x4.inl` and `type_mat3x4.inl`, `translate` of
`matrix_transform.inl`, `compute_inverse` of `func_matrix.inl`, `clamp`, `min`
and `max` of `func_common.inl`); the two OpenVR constants are those of
`openvr.h`.

Conventions.
* `float` values are read as rationals and, unless said otherwise, arithmetic
  is exact: `0.1f` is `1/10`, `.5f` is `1/2`.  Where rounding decides a
  statement (what `Move` emits), the loop body of `Move` is given a second time
  with binary32 rounding after every operation (`moveDeviceF32`, `MoveF32`).
* glm matrices are column major: `m[i]` is column `i`, `m[i][j]` is row `j`
  of column `i`.  `glm::mat3x4` has three columns of four components.
* The global arrays `devicePos` and `deviceLastPos` are total maps from the
  device index; the program only uses indexes below
  `k_unMaxTrackedDeviceCount`.
-/

namespace PlayspaceMover

/-! ## glm vectors -/

/-- Three floats, as in `glm::vec3`. -/
@[ext] structure Vec3 where
  x : ℚ
  y : ℚ
  z : ℚ
deriving DecidableEq

/-- Four floats, as in `glm::vec4`. -/
@[ext] structure Vec4 where
  x : ℚ
  y : ℚ
  z : ℚ
  w : ℚ
deriving DecidableEq

namespace Vec3

/-- The vector `glm::vec3(s)` with all components equal to `s`. -/
def splat (s : ℚ) : Vec3 := ⟨s, s, s⟩

/-- Component-wise sum, `operator+`. -/
def add (a b : Vec3) : Vec3 := ⟨a.x + b.x, a.y + b.y, a.z + b.z⟩

/-- Component-wise difference, `operator-`. -/
def sub (a b : Vec3) : Vec3 := ⟨a.x - b.x, a.y - b.y, a.z - b.z⟩

/-- Unary minus. -/
def neg (a : Vec3) : Vec3 := ⟨-a.x, -a.y, -a.z⟩

/-- Division by a scalar, `operator/=`. -/
def divScalar (a : Vec3) (s : ℚ) : Vec3 := ⟨a.x / s, a.y / s, a.z / s⟩

/-- Product with a scalar. -/
def scale (a : Vec3) (s : ℚ) : Vec3 := ⟨a.x * s, a.y * s, a.z * s⟩

instance : Add Vec3 := ⟨add⟩
instance : Sub Vec3 := ⟨sub⟩
instance : Neg Vec3 := ⟨neg⟩
instance : Zero Vec3 := ⟨⟨0, 0, 0⟩⟩

end Vec3

namespace Vec4

/-- Component-wise sum. -/
def add (a b : Vec4) : Vec4 := ⟨a.x + b.x, a.y + b.y, a.z + b.z, a.w + b.w⟩

/-- Component-wise difference. -/
def sub (a b : Vec4) : Vec4 := ⟨a.x - b.x, a.y - b.y, a.z - b.z, a.w - b.w⟩

/-- Component-wise product, `operator*` on two vectors. -/
def mul (a b : Vec4) : Vec4 := ⟨a.x * b.x, a.y * b.y, a.z * b.z, a.w * b.w⟩

/-- Product with a scalar. -/
def scale (a : Vec4) (s : ℚ) : Vec4 := ⟨a.x * s, a.y * s, a.z * s, a.w * s⟩

/-- The constructor `glm::vec4(v, w)`. -/
def ofVec3 (v : Vec3) (w : ℚ) : Vec4 := ⟨v.x, v.y, v.z, w⟩

/-- The converting constructor `glm::vec3(vec4)`: the `w` component is dropped.
It is implicit in glm, so it is what an assignment of a `vec4` to a `vec3`
and a `vec4` argument in a `vec3` parameter position perform. -/
def toVec3 (v : Vec4) : Vec3 := ⟨v.x, v.y, v.z⟩

instance : Add Vec4 := ⟨add⟩
instance : Sub Vec4 := ⟨sub⟩

end Vec4

/-! ## glm matrices -/

/-- The type `glm::mat4`: four columns of four components. -/
@[ext] structure Mat4 where
  c0 : Vec4
  c1 : Vec4
  c2 : Vec4
  c3 : Vec4
deriving DecidableEq

/-- The type `glm::mat3x4`: three columns of four components. `chaperoneMat`
is filled through a cast to `vr::HmdMatrix34_t*` (three rows of four floats),
so column `i` holds row `i` of the pose matrix: its rotation row in `x`, `y`,
`z` and its translation entry in `w`. -/
@[ext] structure Mat3x4 where
  c0 : Vec4
  c1 : Vec4
  c2 : Vec4
deriving DecidableEq

namespace Mat4

/-- The matrix `glm::mat4x4(1)`. -/
def identity : Mat4 := ⟨⟨1, 0, 0, 0⟩, ⟨0, 1, 0, 0⟩, ⟨0, 0, 1, 0⟩, ⟨0, 0, 0, 1⟩⟩

/-- The product `m * v` of a `mat4` with a `vec4`:
`m[0]*v[0] + m[1]*v[1] + m[2]*v[2] + m[3]*v[3]`. -/
def mulVec (m : Mat4) (v : Vec4) : Vec4 :=
  (m.c0.scale v.x + m.c1.scale v.y) + (m.c2.scale v.z + m.c3.scale v.w)

/-- The function `glm::translate(m, v)`: a copy of `m` whose last column is
`m[0]*v[0] + m[1]*v[1] + m[2]*v[2] + m[3]`. -/
def translate (m : Mat4) (v : Vec3) : Mat4 :=
  { m with c3 := m.c0.scale v.x + m.c1.scale v.y + m.c2.scale v.z + m.c3 }

/-- The cofactor matrix that `glm::inverse` builds before it scales by the
reciprocal of the determinant (the local `Inverse` of `compute_inverse`). -/
def cofactors (m : Mat4) : Mat4 :=
  let Coef00 := m.c2.z * m.c3.w - m.c3.z * m.c2.w
  let Coef02 := m.c1.z * m.c3.w - m.c3.z * m.c1.w
  let Coef03 := m.c1.z * m.c2.w - m.c2.z * m.c1.w
  let Coef04 := m.c2.y * m.c3.w - m.c3.y * m.c2.w
  let Coef06 := m.c1.y * m.c3.w - m.c3.y * m.c1.w
  let Coef07 := m.c1.y * m.c2.w - m.c2.y * m.c1.w
  let Coef08 := m.c2.y * m.c3.z - m.c3.y * m.c2.z
  let Coef10 := m.c1.y * m.c3.z - m.c3.y * m.c1.z
  let Coef11 := m.c1.y * m.c2.z - m.c2.y * m.c1.z
  let Coef12 := m.c2.x * m.c3.w - m.c3.x * m.c2.w
  let Coef14 := m.c1.x * m.c3.w - m.c3.x * m.c1.w
  let Coef15 := m.c1.x * m.c2.w - m.c2.x * m.c1.w
  let Coef16 := m.c2.x * m.c3.z - m.c3.x * m.c2.z
  let Coef18 := m.c1.x * m.c3.z - m.c3.x * m.c1.z
  let Coef19 := m.c1.x * m.c2.z - m.c2.x * m.c1.z
  let Coef20 := m.c2.x * m.c3.y - m.c3.x * m.c2.y
  let Coef22 := m.c1.x * m.c3.y - m.c3.x * m.c1.y
  let Coef23 := m.c1.x * m.c2.y - m.c2.x * m.c1.y
  let Fac0 : Vec4 := ⟨Coef00, Coef00, Coef02, Coef03⟩
  let Fac1 : Vec4 := ⟨Coef04, Coef04, Coef06, Coef07⟩
  let Fac2 : Vec4 := ⟨Coef08, Coef08, Coef10, Coef11⟩
  let Fac3 : Vec4 := ⟨Coef12, Coef12, Coef14, Coef15⟩
  let Fac4 : Vec4 := ⟨Coef16, Coef16, Coef18, Coef19⟩
  let Fac5 : Vec4 := ⟨Coef20, Coef20, Coef22, Coef23⟩
  let V0 : Vec4 := ⟨m.c1.x, m.c0.x, m.c0.x, m.c0.x⟩
  let V1 : Vec4 := ⟨m.c1.y, m.c0.y, m.c0.y, m.c0.y⟩
  let V2 : Vec4 := ⟨m.c1.z, m.c0.z, m.c0.z, m.c0.z⟩
  let V3 : Vec4 := ⟨m.c1.w, m.c0.w, m.c0.w, m.c0.w⟩
  let Inv0 := V1.mul Fac0 - V2.mul Fac1 + V3.mul Fac2
  let Inv1 := V0.mul Fac0 - V2.mul Fac3 + V3.mul Fac4
  let Inv2 := V0.mul Fac1 - V1.mul Fac3 + V3.mul Fac5
  let Inv3 := V0.mul Fac2 - V1.mul Fac4 + V2.mul Fac5
  let SignA : Vec4 := ⟨1, -1, 1, -1⟩
  let SignB : Vec4 := ⟨-1, 1, -1, 1⟩
  ⟨Inv0.mul SignA, Inv1.mul SignB, Inv2.mul SignA, Inv3.mul SignB⟩

/-- The determinant as `glm::inverse` computes it (its local `Dot1`): the
first column of `m` against the first row of the cofactor matrix. -/
def determinant (m : Mat4) : ℚ :=
  let I := m.cofactors
  let Row0 : Vec4 := ⟨I.c0.x, I.c1.x, I.c2.x, I.c3.x⟩
  let Dot0 := m.c0.mul Row0
  (Dot0.x + Dot0.y) + (Dot0.z + Dot0.w)

/-- The function `glm::inverse` on a `mat4`: the cofactor matrix times
`1 / determinant`. -/
def inverse (m : Mat4) : Mat4 :=
  let I := m.cofactors
  let OneOverDeterminant : ℚ := 1 / m.determinant
  ⟨I.c0.scale OneOverDeterminant, I.c1.scale OneOverDeterminant,
   I.c2.scale OneOverDeterminant, I.c3.scale OneOverDeterminant⟩

end Mat4

namespace Mat3x4

/-- The product `m * v` of a `mat3x4` with a `vec3`, a `vec4`:
component `j` is `m[0][j]*v.x + m[1][j]*v.y + m[2][j]*v.z`. -/
def mulVec (m : Mat3x4) (v : Vec3) : Vec4 :=
  ⟨m.c0.x * v.x + m.c1.x * v.y + m.c2.x * v.z,
   m.c0.y * v.x + m.c1.y * v.y + m.c2.y * v.z,
   m.c0.z * v.x + m.c1.z * v.y + m.c2.z * v.z,
   m.c0.w * v.x + m.c1.w * v.y + m.c2.w * v.z⟩

/-- The chaperone matrix of an identity standing-zero pose. -/
def identity : Mat3x4 := ⟨⟨1, 0, 0, 0⟩, ⟨0, 1, 0, 0⟩, ⟨0, 0, 1, 0⟩⟩

end Mat3x4

/-- The scalar `glm::max(x, y)`: `(x < y) ? y : x`. -/
def glmMax (x y : ℚ) : ℚ := if x < y then y else x

/-- The scalar `glm::min(x, y)`: `(y < x) ? y : x`. -/
def glmMin (x y : ℚ) : ℚ := if y < x then y else x

/-- The scalar `glm::clamp(x, minVal, maxVal)`: `min(max(x, minVal), maxVal)`. -/
def clampScalar (x minVal maxVal : ℚ) : ℚ := glmMin (glmMax x minVal) maxVal

/-- The vector `glm::clamp(x, minVal, maxVal)`, component by component. -/
def clamp (v minVal maxVal : Vec3) : Vec3 :=
  ⟨clampScalar v.x minVal.x maxVal.x, clampScalar v.y minVal.y maxVal.y,
   clampScalar v.z minVal.z maxVal.z⟩

/-! ## Program state and the services it talks to -/

/-- The constant `vr::k_unMaxTrackedDeviceCount` of openvr.h. -/
def k_unMaxTrackedDeviceCount : Nat := 64

/-- The constant `vr::k_unTrackedDeviceIndexInvalid` of openvr.h. -/
def k_unTrackedDeviceIndexInvalid : Nat := 0xFFFFFFFF

/-- The file-level variables of PlayspaceMover.cpp that the frame pipeline
reads and writes. -/
structure Globals where
  offset : Mat4
  lastOffset : Mat4
  chaperoneMat : Mat3x4
  devicePos : Nat → Vec3
  deviceLastPos : Nat → Vec3
  virtualDeviceIndexes : List Nat

/-- What the tracking runtime answers during one frame: the device index of
each hand role, the `ulButtonPressed` word that `GetControllerState` leaves in
the state structure of a device, and `IsTrackedDeviceConnected`. -/
structure VRSystem where
  leftHand : Nat
  rightHand : Nat
  ulButtonPressed : Nat → Nat
  connected : Nat → Bool

/-- What the injection service answers: `getVirtualDeviceCount()` as stored in
the `int count`, and `getVirtualDeviceInfo(id).openvrDeviceId`, `none` when
the call throws. -/
structure InputEmulator where
  getVirtualDeviceCount : Int
  getVirtualDeviceInfo : Nat → Option Nat

/-- A command sent to the injection service. -/
inductive EmulatorCall where
  | enableDeviceOffsets (deviceIndex : Nat)
  | setWorldFromDriverTranslationOffset (deviceIndex : Nat) (v : Vec3)
deriving DecidableEq

/-- The values `main` gives the globals before the main loop:
`offset = glm::mat4x4(1); lastOffset = offset;`. -/
def startup (chaperoneMat : Mat3x4) (devicePos deviceLastPos : Nat → Vec3) : Globals :=
  { offset := Mat4.identity, lastOffset := Mat4.identity, chaperoneMat := chaperoneMat,
    devicePos := devicePos, deviceLastPos := deviceLastPos, virtualDeviceIndexes := [] }

/-! ## The virtual device registry -/

/-- Conversion of an integer to `size_t` (64 bits), as the comparison
`virtualDeviceIndexes.size() != count` performs on its `int` operand. -/
def toSizeT (n : Int) : Int := n % 2 ^ 64

/-- The rebuild loop of `updateVirtualDevices`: every slot of the device table
is asked for its virtual device, a slot whose query throws is skipped. -/
def rebuildVirtualDevices (emu : InputEmulator) : List Nat :=
  (List.range k_unMaxTrackedDeviceCount).filterMap emu.getVirtualDeviceInfo

/-- The function `updateVirtualDevices`, on the cached list. -/
def updateVirtualDevices (emu : InputEmulator) (virtualDeviceIndexes : List Nat) : List Nat :=
  let count := emu.getVirtualDeviceCount
  if toSizeT virtualDeviceIndexes.length ≠ toSizeT count then
    rebuildVirtualDevices emu
  else
    virtualDeviceIndexes

/-- The function `isVirtualDevice`. -/
def isVirtualDevice (virtualDeviceIndexes : List Nat) (deviceIndex : Nat) : Bool :=
  if virtualDeviceIndexes.isEmpty then false
  else decide (deviceIndex ∈ virtualDeviceIndexes)

/-! ## updateOffset -/

/-- One of the two hand blocks of `updateOffset`: when the role resolves and
the pressed buttons meet the mask, the hand adds its motion to `delta` and one
to `count`. -/
def addHand (g : Globals) (vr : VRSystem) (id buttonMask : Nat) (acc : Vec3 × ℚ) : Vec3 × ℚ :=
  if id ≠ k_unTrackedDeviceIndexInvalid then
    if vr.ulButtonPressed id &&& buttonMask ≠ 0 then
      (acc.1 + (g.devicePos id - g.deviceLastPos id), acc.2 + 1)
    else acc
  else acc

/-- The pair `(delta, count)` of `updateOffset` after both hand blocks. -/
def summedDelta (g : Globals) (vr : VRSystem) (leftButtonMask rightButtonMask : Nat) :
    Vec3 × ℚ :=
  addHand g vr vr.rightHand rightButtonMask
    (addHand g vr vr.leftHand leftButtonMask (Vec3.mk 0 0 0, 0))

/-- The value of `delta` after `if (count) delta /= count;`: what
`updateOffset` hands to `glm::clamp`. -/
def averagedDelta (g : Globals) (vr : VRSystem) (leftButtonMask rightButtonMask : Nat) :
    Vec3 :=
  let s := summedDelta g vr leftButtonMask rightButtonMask
  if s.2 ≠ 0 then s.1.divScalar s.2 else s.1

/-- The value of `delta` after
`glm::clamp(delta, glm::vec3(-0.1f), glm::vec3(0.1f))`: what `updateOffset`
multiplies by `chaperoneMat`. -/
def clampedDelta (g : Globals) (vr : VRSystem) (leftButtonMask rightButtonMask : Nat) :
    Vec3 :=
  clamp (averagedDelta g vr leftButtonMask rightButtonMask)
    (Vec3.splat (-(1 / 10))) (Vec3.splat (1 / 10))

/-- The value of `delta` after `delta = chaperoneMat * glm::vec4(delta, 1.f)`.
The `vec4` argument is truncated to the `vec3` that the `mat3x4` product
takes, and the `vec4` result is truncated again by the assignment. -/
def worldDelta (g : Globals) (vr : VRSystem) (leftButtonMask rightButtonMask : Nat) :
    Vec3 :=
  (g.chaperoneMat.mulVec
    (Vec4.ofVec3 (clampedDelta g vr leftButtonMask rightButtonMask) 1).toVec3).toVec3

/-- The function `updateOffset`. -/
def updateOffset (g : Globals) (vr : VRSystem) (leftButtonMask rightButtonMask : Nat) :
    Globals :=
  let delta := worldDelta g vr leftButtonMask rightButtonMask
  { g with lastOffset := g.offset, offset := g.offset.translate (-delta) }

/-! ## Move -/

/-- The body of the loop of `Move` for one connected device whose cached
position is `p`: the value written back to `devicePos[deviceIndex]` (the
`vec4` `newpos` truncated) and the vector `copy` passed to
`setWorldFromDriverTranslationOffset`. The arithmetic is exact here;
`moveDeviceR` is the same body with a rounding after every operation, and
`moveDeviceF32` its binary32 instance. -/
def moveDevice (g : Globals) (deviceIndex : Nat) (p : Vec3) : Vec3 × Vec3 :=
  if isVirtualDevice g.virtualDeviceIndexes deviceIndex then
    let oldpos := g.lastOffset.inverse.mulVec (Vec4.ofVec3 p 1)
    let newpos := g.offset.mulVec oldpos
    (newpos.toVec3,
      ⟨(newpos.x - oldpos.x) * (1 / 2), (newpos.y - oldpos.y) * (1 / 2),
       (newpos.z - oldpos.z) * (1 / 2)⟩)
  else
    let oldpos := g.lastOffset.inverse.mulVec (Vec4.ofVec3 p 1)
    let newpos := g.offset.mulVec oldpos
    (newpos.toVec3, ⟨newpos.x - oldpos.x, newpos.y - oldpos.y, newpos.z - oldpos.z⟩)

/-- The loop of `Move` over the device indexes still to visit. `g` carries
`offset`, `lastOffset` and the registry, which the loop does not change;
`devicePos` is the array as the earlier iterations left it. The result is the
final array and the calls made, in order. -/
def moveLoop (g : Globals) (vr : VRSystem) :
    List Nat → (Nat → Vec3) → (Nat → Vec3) × List EmulatorCall
  | [], devicePos => (devicePos, [])
  | deviceIndex :: rest, devicePos =>
    if vr.connected deviceIndex then
      let d := moveDevice g deviceIndex (devicePos deviceIndex)
      let r := moveLoop g vr rest (fun j => if j = deviceIndex then d.1 else devicePos j)
      (r.1, EmulatorCall.enableDeviceOffsets deviceIndex ::
        EmulatorCall.setWorldFromDriverTranslationOffset deviceIndex d.2 :: r.2)
    else
      moveLoop g vr rest devicePos

/-- The function `Move`: the new globals and the calls made. -/
def Move (g : Globals) (vr : VRSystem) : Globals × List EmulatorCall :=
  let r := moveLoop g vr (List.range k_unMaxTrackedDeviceCount) g.devicePos
  ({ g with devicePos := r.1 }, r.2)

/-! ## Vocabulary of the statements -/

/-- A hand contributes to `delta`: its role resolves to a device and the
pressed buttons of that device meet the mask. -/
def handGrabs (vr : VRSystem) (id buttonMask : Nat) : Prop :=
  id ≠ k_unTrackedDeviceIndexInvalid ∧ vr.ulButtonPressed id &&& buttonMask ≠ 0

instance (vr : VRSystem) (id buttonMask : Nat) : Decidable (handGrabs vr id buttonMask) := by
  unfold handGrabs; infer_instance

/-- The motion of device `id` over the last frame,
`devicePos[id] - deviceLastPos[id]`. -/
def handDelta (g : Globals) (id : Nat) : Vec3 := g.devicePos id - g.deviceLastPos id

/-- The translation matrix with translation part `t`: identity upper-left
block, bottom row `(0, 0, 0, 1)`. -/
def translation (t : Vec3) : Mat4 :=
  ⟨⟨1, 0, 0, 0⟩, ⟨0, 1, 0, 0⟩, ⟨0, 0, 1, 0⟩, ⟨t.x, t.y, t.z, 1⟩⟩

/-- A pure translation matrix: the upper-left 3x3 block is the identity and
the bottom row is `(0, 0, 0, 1)`. -/
def isPureTranslation (m : Mat4) : Prop :=
  m.c0 = ⟨1, 0, 0, 0⟩ ∧ m.c1 = ⟨0, 1, 0, 0⟩ ∧ m.c2 = ⟨0, 0, 1, 0⟩ ∧ m.c3.w = 1

/-- The matrix is invertible and `glm::inverse` inverts it: the determinant
that `glm::inverse` divides by is not zero, and the inverse undoes `m` on
every vector, on both sides. -/
def isInvertible (m : Mat4) : Prop :=
  m.determinant ≠ 0 ∧
    ∀ v : Vec4, m.inverse.mulVec (m.mulVec v) = v ∧ m.mulVec (m.inverse.mulVec v) = v

/-- How a clamped component `c` relates to the component `a` it comes from,
for the bounds `-0.1` and `0.1`. -/
def clampedTo (a c : ℚ) : Prop :=
  (-(1 / 10) ≤ c ∧ c ≤ 1 / 10) ∧
  (-(1 / 10) ≤ a ∧ a ≤ 1 / 10 → c = a) ∧
  (1 / 10 < a → c = 1 / 10) ∧
  (a < -(1 / 10) → c = -(1 / 10))

/-- All components within the clamp range `[-0.1, 0.1]`. -/
def withinClamp (d : Vec3) : Prop :=
  (-(1 / 10) ≤ d.x ∧ d.x ≤ 1 / 10) ∧ (-(1 / 10) ≤ d.y ∧ d.y ≤ 1 / 10) ∧
  (-(1 / 10) ≤ d.z ∧ d.z ≤ 1 / 10)

/-- Everything one frame feeds into `updateOffset`: the answers of the
tracking runtime, the refreshed chaperone matrix, the position samples and
the two masks. -/
structure Frame where
  vr : VRSystem
  chaperoneMat : Mat3x4
  devicePos : Nat → Vec3
  deviceLastPos : Nat → Vec3
  leftButtonMask : Nat
  rightButtonMask : Nat

/-- The globals after a sequence of frames of `updateOffset`, each with its own
inputs. -/
def runFrames : Globals → List Frame → Globals
  | g, [] => g
  | g, f :: fs =>
    runFrames
      (updateOffset
        { g with chaperoneMat := f.chaperoneMat, devicePos := f.devicePos,
                 deviceLastPos := f.deviceLastPos }
        f.vr f.leftButtonMask f.rightButtonMask) fs

/-- The globals after `Move` has run once per frame along a sequence of
offsets: in each frame the previous offset becomes `lastOffset`, the next one
of the sequence becomes `offset`, and no pose is refreshed in between. -/
def runMoves (vr : VRSystem) : Globals → List Mat4 → Globals
  | g, [] => g
  | g, o :: os => runMoves vr (Move { g with lastOffset := g.offset, offset := o } vr).1 os


/-! ## A concrete session

Device 0 is the headset, 1 the left controller, 2 the right controller and 3
a virtual tracker; all four are connected. -/

/-- The tracking runtime of the session, for given pressed-button words of
the two controllers. -/
def sessionVR (leftPressed rightPressed : Nat) : VRSystem :=
  { leftHand := 1, rightHand := 2,
    ulButtonPressed := fun i => if i = 1 then leftPressed else if i = 2 then rightPressed else 0,
    connected := fun i => decide (i < 4) }

/-- Current positions: the left controller has moved by `(0.05, 0, 0)`, the
right one by `(0.01, 0.02, 0)`, headset and tracker sit at `(1, 0, 0)`. -/
def sessionPos : Nat → Vec3 :=
  fun i => if i = 1 then ⟨1 / 20, 0, 0⟩ else if i = 2 then ⟨1 / 100, 1 / 50, 0⟩ else ⟨1, 0, 0⟩

/-- Positions of the previous frame. -/
def sessionLastPos : Nat → Vec3 :=
  fun i => if i = 1 then ⟨0, 0, 0⟩ else if i = 2 then ⟨0, 0, 0⟩ else ⟨1, 0, 0⟩

/-- The globals at the first frame of the session: the values of `startup`
with an identity chaperone, and device 3 in the registry. -/
def sessionStart : Globals :=
  { startup Mat3x4.identity sessionPos sessionLastPos with virtualDeviceIndexes := [3] }

/-- The globals after the first frame, in which the left hand grabs (button 7
pressed, mask 130): `updateOffset`, then `Move`. -/
def sessionAfterGrab : Globals :=
  (Move (updateOffset sessionStart (sessionVR 128 0) 130 130) (sessionVR 128 0)).1

/-- Globals with an accumulated offset and a chaperone matrix that is a
quarter turn about the vertical axis with translation part `(5, 6, 7)`. -/
def shiftedGlobals : Globals :=
  { sessionStart with
    offset := translation ⟨1, 2, 3⟩,
    chaperoneMat := ⟨⟨0, 0, 1, 5⟩, ⟨0, 1, 0, 6⟩, ⟨-1, 0, 0, 7⟩⟩ }

/-- The session globals with `lastOffset` the translation by `(1, 2, 3)` and
`offset` the translation by `(4, 5, 6)`. -/
def shiftedMove : Globals :=
  { sessionStart with lastOffset := translation ⟨1, 2, 3⟩, offset := translation ⟨4, 5, 6⟩ }

/-- An injection service that reports one virtual device, with OpenVR index 5. -/
def sessionEmulator : InputEmulator :=
  { getVirtualDeviceCount := 1,
    getVirtualDeviceInfo := fun i => if i = 0 then some 5 else none }


/-! ## The loop of Move in binary32

The definitions above read `float` arithmetic exactly. The ones below repeat
the loop body of `Move` and the glm operations it calls with every arithmetic
operation followed by a rounding `r`. With `r = roundF32` this is IEEE 754
binary32 arithmetic in round-to-nearest-even, each operation rounded on its
own, for values in the normal range (no overflow, no subnormal result); with
`r = id` it is the exact reading again. -/

/-- The nearest integer, the even one on a tie. -/
def roundHalfEven (q : ℚ) : ℤ :=
  let f := ⌊q⌋
  if q - f < 1 / 2 then f
  else if 1 / 2 < q - f then f + 1
  else if f % 2 = 0 then f else f + 1

/-- The binary32 value nearest to `q`, ties to even: `q` is rounded to a
multiple of `2 ^ (e - 23)`, where `2 ^ e ≤ |q| < 2 ^ (e + 1)`, which leaves a
significand of 24 bits. The exponent range is not bounded. -/
def roundF32 (q : ℚ) : ℚ :=
  if q = 0 then 0
  else
    let ulp : ℚ := 2 ^ (Int.log 2 |q| - 23)
    roundHalfEven (q / ulp) * ulp

namespace Vec4

/-- Component-wise sum, each component rounded. -/
def addR (r : ℚ → ℚ) (a b : Vec4) : Vec4 :=
  ⟨r (a.x + b.x), r (a.y + b.y), r (a.z + b.z), r (a.w + b.w)⟩

/-- Component-wise difference, each component rounded. -/
def subR (r : ℚ → ℚ) (a b : Vec4) : Vec4 :=
  ⟨r (a.x - b.x), r (a.y - b.y), r (a.z - b.z), r (a.w - b.w)⟩

/-- Component-wise product, each component rounded. -/
def mulR (r : ℚ → ℚ) (a b : Vec4) : Vec4 :=
  ⟨r (a.x * b.x), r (a.y * b.y), r (a.z * b.z), r (a.w * b.w)⟩

/-- Product with a scalar, each component rounded. -/
def scaleR (r : ℚ → ℚ) (a : Vec4) (s : ℚ) : Vec4 :=
  ⟨r (a.x * s), r (a.y * s), r (a.z * s), r (a.w * s)⟩

end Vec4

namespace Mat4

/-- The product `m * v` of a `mat4` with a `vec4`, as `mulVec`, every product
and every sum rounded. -/
def mulVecR (r : ℚ → ℚ) (m : Mat4) (v : Vec4) : Vec4 :=
  Vec4.addR r (Vec4.addR r (m.c0.scaleR r v.x) (m.c1.scaleR r v.y))
    (Vec4.addR r (m.c2.scaleR r v.z) (m.c3.scaleR r v.w))

/-- The cofactor matrix of `glm::inverse`, as `cofactors`, every product, sum
and difference rounded. -/
def cofactorsR (r : ℚ → ℚ) (m : Mat4) : Mat4 :=
  let Coef00 := r (r (m.c2.z * m.c3.w) - r (m.c3.z * m.c2.w))
  let Coef02 := r (r (m.c1.z * m.c3.w) - r (m.c3.z * m.c1.w))
  let Coef03 := r (r (m.c1.z * m.c2.w) - r (m.c2.z * m.c1.w))
  let Coef04 := r (r (m.c2.y * m.c3.w) - r (m.c3.y * m.c2.w))
  let Coef06 := r (r (m.c1.y * m.c3.w) - r (m.c3.y * m.c1.w))
  let Coef07 := r (r (m.c1.y * m.c2.w) - r (m.c2.y * m.c1.w))
  let Coef08 := r (r (m.c2.y * m.c3.z) - r (m.c3.y * m.c2.z))
  let Coef10 := r (r (m.c1.y * m.c3.z) - r (m.c3.y * m.c1.z))
  let Coef11 := r (r (m.c1.y * m.c2.z) - r (m.c2.y * m.c1.z))
  let Coef12 := r (r (m.c2.x * m.c3.w) - r (m.c3.x * m.c2.w))
  let Coef14 := r (r (m.c1.x * m.c3.w) - r (m.c3.x * m.c1.w))
  let Coef15 := r (r (m.c1.x * m.c2.w) - r (m.c2.x * m.c1.w))
  let Coef16 := r (r (m.c2.x * m.c3.z) - r (m.c3.x * m.c2.z))
  let Coef18 := r (r (m.c1.x * m.c3.z) - r (m.c3.x * m.c1.z))
  let Coef19 := r (r (m.c1.x * m.c2.z) - r (m.c2.x * m.c1.z))
  let Coef20 := r (r (m.c2.x * m.c3.y) - r (m.c3.x * m.c2.y))
  let Coef22 := r (r (m.c1.x * m.c3.y) - r (m.c3.x * m.c1.y))
  let Coef23 := r (r (m.c1.x * m.c2.y) - r (m.c2.x * m.c1.y))
  let Fac0 : Vec4 := ⟨Coef00, Coef00, Coef02, Coef03⟩
  let Fac1 : Vec4 := ⟨Coef04, Coef04, Coef06, Coef07⟩
  let Fac2 : Vec4 := ⟨Coef08, Coef08, Coef10, Coef11⟩
  let Fac3 : Vec4 := ⟨Coef12, Coef12, Coef14, Coef15⟩
  let Fac4 : Vec4 := ⟨Coef16, Coef16, Coef18, Coef19⟩
  let Fac5 : Vec4 := ⟨Coef20, Coef20, Coef22, Coef23⟩
  let V0 : Vec4 := ⟨m.c1.x, m.c0.x, m.c0.x, m.c0.x⟩
  let V1 : Vec4 := ⟨m.c1.y, m.c0.y, m.c0.y, m.c0.y⟩
  let V2 : Vec4 := ⟨m.c1.z, m.c0.z, m.c0.z, m.c0.z⟩
  let V3 : Vec4 := ⟨m.c1.w, m.c0.w, m.c0.w, m.c0.w⟩
  let Inv0 := Vec4.addR r (Vec4.subR r (V1.mulR r Fac0) (V2.mulR r Fac1)) (V3.mulR r Fac2)
  let Inv1 := Vec4.addR r (Vec4.subR r (V0.mulR r Fac0) (V2.mulR r Fac3)) (V3.mulR r Fac4)
  let Inv2 := Vec4.addR r (Vec4.subR r (V0.mulR r Fac1) (V1.mulR r Fac3)) (V3.mulR r Fac5)
  let Inv3 := Vec4.addR r (Vec4.subR r (V0.mulR r Fac2) (V1.mulR r Fac4)) (V2.mulR r Fac5)
  let SignA : Vec4 := ⟨1, -1, 1, -1⟩
  let SignB : Vec4 := ⟨-1, 1, -1, 1⟩
  ⟨Inv0.mulR r SignA, Inv1.mulR r SignB, Inv2.mulR r SignA, Inv3.mulR r SignB⟩

/-- The determinant of `glm::inverse`, as `determinant`, every operation
rounded. -/
def determinantR (r : ℚ → ℚ) (m : Mat4) : ℚ :=
  let I := m.cofactorsR r
  let Row0 : Vec4 := ⟨I.c0.x, I.c1.x, I.c2.x, I.c3.x⟩
  let Dot0 := m.c0.mulR r Row0
  r (r (Dot0.x + Dot0.y) + r (Dot0.z + Dot0.w))

/-- The function `glm::inverse`, as `inverse`, every operation rounded. -/
def inverseR (r : ℚ → ℚ) (m : Mat4) : Mat4 :=
  let I := m.cofactorsR r
  let OneOverDeterminant : ℚ := r (1 / m.determinantR r)
  ⟨I.c0.scaleR r OneOverDeterminant, I.c1.scaleR r OneOverDeterminant,
   I.c2.scaleR r OneOverDeterminant, I.c3.scaleR r OneOverDeterminant⟩

end Mat4

/-- The body of the loop of `Move`, as `moveDevice`, every arithmetic
operation followed by the rounding `r`. -/
def moveDeviceR (r : ℚ → ℚ) (g : Globals) (deviceIndex : Nat) (p : Vec3) : Vec3 × Vec3 :=
  if isVirtualDevice g.virtualDeviceIndexes deviceIndex then
    let oldpos := (g.lastOffset.inverseR r).mulVecR r (Vec4.ofVec3 p 1)
    let newpos := g.offset.mulVecR r oldpos
    (newpos.toVec3,
      ⟨r (r (newpos.x - oldpos.x) * (1 / 2)), r (r (newpos.y - oldpos.y) * (1 / 2)),
       r (r (newpos.z - oldpos.z) * (1 / 2))⟩)
  else
    let oldpos := (g.lastOffset.inverseR r).mulVecR r (Vec4.ofVec3 p 1)
    let newpos := g.offset.mulVecR r oldpos
    (newpos.toVec3,
      ⟨r (newpos.x - oldpos.x), r (newpos.y - oldpos.y), r (newpos.z - oldpos.z)⟩)

/-- The body of the loop of `Move` in binary32 arithmetic. -/
def moveDeviceF32 (g : Globals) (deviceIndex : Nat) (p : Vec3) : Vec3 × Vec3 :=
  moveDeviceR roundF32 g deviceIndex p

/-- The loop of `Move`, as `moveLoop`, with the body in binary32 arithmetic. -/
def moveLoopF32 (g : Globals) (vr : VRSystem) :
    List Nat → (Nat → Vec3) → (Nat → Vec3) × List EmulatorCall
  | [], devicePos => (devicePos, [])
  | deviceIndex :: rest, devicePos =>
    if vr.connected deviceIndex then
      let d := moveDeviceF32 g deviceIndex (devicePos deviceIndex)
      let r := moveLoopF32 g vr rest (fun j => if j = deviceIndex then d.1 else devicePos j)
      (r.1, EmulatorCall.enableDeviceOffsets deviceIndex ::
        EmulatorCall.setWorldFromDriverTranslationOffset deviceIndex d.2 :: r.2)
    else
      moveLoopF32 g vr rest devicePos

/-- The function `Move` in binary32 arithmetic: the new globals and the calls
made. -/
def MoveF32 (g : Globals) (vr : VRSystem) : Globals × List EmulatorCall :=
  let r := moveLoopF32 g vr (List.range k_unMaxTrackedDeviceCount) g.devicePos
  ({ g with devicePos := r.1 }, r.2)

/-- The binary32 globals of the session after `updateOffset` in the first
frame: the left controller (device 1) went from the origin to `(0.05f, 0, 0)`
with its grab button held, so `lastOffset` is the identity and `offset` the
translation by `(-0.05f, 0, 0)`, where `0.05f = 13421773 / 2 ^ 28`; headset
and tracker are cached at `(1, 0, 0)`. -/
def sessionGrabF32 : Globals :=
  { offset := translation ⟨-(13421773 / 268435456), 0, 0⟩,
    lastOffset := translation ⟨0, 0, 0⟩,
    chaperoneMat := Mat3x4.identity,
    devicePos := fun i =>
      if i = 1 then ⟨13421773 / 268435456, 0, 0⟩
      else if i = 2 then ⟨0, 0, 0⟩ else ⟨1, 0, 0⟩,
    deviceLastPos := fun i =>
      if i = 1 then ⟨0, 0, 0⟩ else if i = 2 then ⟨0, 0, 0⟩ else ⟨1, 0, 0⟩,
    virtualDeviceIndexes := [3] }


/-! ## Unfolding lemmas for the vector operations -/

@[simp] theorem vec3_add_def (a b : Vec3) : a + b = ⟨a.x + b.x, a.y + b.y, a.z + b.z⟩ := rfl
@[simp] theorem vec3_sub_def (a b : Vec3) : a - b = ⟨a.x - b.x, a.y - b.y, a.z - b.z⟩ := rfl
@[simp] theorem vec3_neg_def (a : Vec3) : -a = ⟨-a.x, -a.y, -a.z⟩ := rfl
@[simp] theorem vec3_zero_def : (0 : Vec3) = ⟨0, 0, 0⟩ := rfl
@[simp] theorem vec4_add_def (a b : Vec4) :
    a + b = ⟨a.x + b.x, a.y + b.y, a.z + b.z, a.w + b.w⟩ := rfl
@[simp] theorem vec4_sub_def (a b : Vec4) :
    a - b = ⟨a.x - b.x, a.y - b.y, a.z - b.z, a.w - b.w⟩ := rfl

/-! ## glm facts used below -/

theorem translate_zero (m : Mat4) : m.translate (-(⟨0, 0, 0⟩ : Vec3)) = m := by
  ext <;> simp [Mat4.translate, Vec4.scale]

theorem translate_translation (t v : Vec3) :
    (translation t).translate v = translation (t + v) := by
  ext <;> simp [Mat4.translate, translation, Vec4.scale, add_comm]

theorem isPureTranslation_iff (m : Mat4) :
    isPureTranslation m ↔ m = translation ⟨m.c3.x, m.c3.y, m.c3.z⟩ := by
  constructor
  · rintro ⟨h0, h1, h2, h3⟩
    ext <;> simp [translation, h0, h1, h2, h3]
  · intro h
    rw [h]
    simp [isPureTranslation, translation]

theorem isPureTranslation_translation (t : Vec3) : isPureTranslation (translation t) := by
  simp [isPureTranslation, translation]

theorem determinant_translation (t : Vec3) : (translation t).determinant = 1 := by
  simp [Mat4.determinant, Mat4.cofactors, translation, Vec4.mul]

theorem inverse_translation (t : Vec3) : (translation t).inverse = translation (-t) := by
  unfold Mat4.inverse
  rw [determinant_translation]
  ext <;> simp [Mat4.cofactors, translation, Vec4.mul, Vec4.scale]

theorem mulVec_translation (t p : Vec3) :
    (translation t).mulVec (Vec4.ofVec3 p 1) = Vec4.ofVec3 (p + t) 1 := by
  ext <;> simp [Mat4.mulVec, translation, Vec4.ofVec3, Vec4.scale]

theorem mulVec_identity_chaperone (v : Vec3) :
    (Mat3x4.identity.mulVec (Vec4.ofVec3 v 1).toVec3).toVec3 = v := by
  ext <;> simp [Mat3x4.mulVec, Mat3x4.identity, Vec4.ofVec3, Vec4.toVec3]

theorem mulVec_zero_chaperone (m : Mat3x4) :
    (m.mulVec (Vec4.ofVec3 ⟨0, 0, 0⟩ 1).toVec3).toVec3 = ⟨0, 0, 0⟩ := by
  ext <;> simp [Mat3x4.mulVec, Vec4.ofVec3, Vec4.toVec3]

theorem clampScalar_spec (a : ℚ) : clampedTo a (clampScalar a (-(1 / 10)) (1 / 10)) := by
  unfold clampedTo clampScalar glmMin glmMax
  split_ifs <;> refine ⟨⟨?_, ?_⟩, ?_, ?_, ?_⟩ <;> intros <;> linarith

theorem clamp_of_withinClamp (d : Vec3) (h : withinClamp d) :
    clamp d (Vec3.splat (-(1 / 10))) (Vec3.splat (1 / 10)) = d := by
  obtain ⟨hx, hy, hz⟩ := h
  ext
  · exact (clampScalar_spec d.x).2.1 hx
  · exact (clampScalar_spec d.y).2.1 hy
  · exact (clampScalar_spec d.z).2.1 hz

/-! ## The hand blocks -/

theorem addHand_of_grabs (g : Globals) (vr : VRSystem) (id mask : Nat) (acc : Vec3 × ℚ)
    (h : handGrabs vr id mask) :
    addHand g vr id mask acc = (acc.1 + handDelta g id, acc.2 + 1) := by
  obtain ⟨h1, h2⟩ := h
  simp [addHand, h1, h2, handDelta]

theorem addHand_of_not_grabs (g : Globals) (vr : VRSystem) (id mask : Nat) (acc : Vec3 × ℚ)
    (h : ¬ handGrabs vr id mask) :
    addHand g vr id mask acc = acc := by
  unfold handGrabs at h
  unfold addHand
  split_ifs with h1 h2
  · exact absurd ⟨h1, h2⟩ h
  · rfl
  · rfl

theorem not_handGrabs_iff (vr : VRSystem) (id mask : Nat) :
    ¬ handGrabs vr id mask ↔
      (id = k_unTrackedDeviceIndexInvalid ∨ vr.ulButtonPressed id &&& mask = 0) := by
  unfold handGrabs
  tauto

theorem averagedDelta_idle (g : Globals) (vr : VRSystem) (lm rm : Nat)
    (hl : ¬ handGrabs vr vr.leftHand lm) (hr : ¬ handGrabs vr vr.rightHand rm) :
    averagedDelta g vr lm rm = ⟨0, 0, 0⟩ := by
  simp [averagedDelta, summedDelta, addHand_of_not_grabs, hl, hr]

theorem averagedDelta_left (g : Globals) (vr : VRSystem) (lm rm : Nat)
    (hl : handGrabs vr vr.leftHand lm) (hr : ¬ handGrabs vr vr.rightHand rm) :
    averagedDelta g vr lm rm = handDelta g vr.leftHand := by
  simp [averagedDelta, summedDelta, addHand_of_not_grabs, addHand_of_grabs, hl, hr,
    Vec3.divScalar]

theorem averagedDelta_right (g : Globals) (vr : VRSystem) (lm rm : Nat)
    (hl : ¬ handGrabs vr vr.leftHand lm) (hr : handGrabs vr vr.rightHand rm) :
    averagedDelta g vr lm rm = handDelta g vr.rightHand := by
  simp [averagedDelta, summedDelta, addHand_of_not_grabs, addHand_of_grabs, hl, hr,
    Vec3.divScalar]

theorem averagedDelta_both (g : Globals) (vr : VRSystem) (lm rm : Nat)
    (hl : handGrabs vr vr.leftHand lm) (hr : handGrabs vr vr.rightHand rm) :
    averagedDelta g vr lm rm =
      (handDelta g vr.leftHand + handDelta g vr.rightHand).divScalar 2 := by
  simp [averagedDelta, summedDelta, addHand_of_grabs, hl, hr, Vec3.divScalar]
  norm_num

theorem worldDelta_idle (g : Globals) (vr : VRSystem) (lm rm : Nat)
    (hl : ¬ handGrabs vr vr.leftHand lm) (hr : ¬ handGrabs vr vr.rightHand rm) :
    worldDelta g vr lm rm = ⟨0, 0, 0⟩ := by
  have hc : clampedDelta g vr lm rm = ⟨0, 0, 0⟩ := by
    unfold clampedDelta
    rw [averagedDelta_idle g vr lm rm hl hr]
    exact clamp_of_withinClamp _ (by norm_num [withinClamp])
  unfold worldDelta
  rw [hc]
  exact mulVec_zero_chaperone _

theorem updateOffset_idle (g : Globals) (vr : VRSystem) (lm rm : Nat)
    (hl : ¬ handGrabs vr vr.leftHand lm) (hr : ¬ handGrabs vr vr.rightHand rm) :
    updateOffset g vr lm rm = { g with lastOffset := g.offset } := by
  unfold updateOffset
  simp only [worldDelta_idle g vr lm rm hl hr, translate_zero]

theorem updateOffset_pure (g : Globals) (vr : VRSystem) (lm rm : Nat)
    (h : isPureTranslation g.offset) :
    isPureTranslation (updateOffset g vr lm rm).offset ∧
      isPureTranslation (updateOffset g vr lm rm).lastOffset := by
  refine ⟨?_, h⟩
  rw [isPureTranslation_iff] at h
  show isPureTranslation (g.offset.translate _)
  rw [h, translate_translation]
  exact isPureTranslation_translation _

theorem runFrames_pure : ∀ (fs : List Frame) (g : Globals),
    isPureTranslation g.offset → isPureTranslation g.lastOffset →
    isPureTranslation (runFrames g fs).offset ∧
      isPureTranslation (runFrames g fs).lastOffset
  | [], _, h1, h2 => ⟨h1, h2⟩
  | f :: fs, g, h1, _ => by
    have h := updateOffset_pure
      { g with chaperoneMat := f.chaperoneMat, devicePos := f.devicePos,
               deviceLastPos := f.deviceLastPos }
      f.vr f.leftButtonMask f.rightButtonMask h1
    exact runFrames_pure fs _ h.1 h.2

theorem isInvertible_of_pure (m : Mat4) (h : isPureTranslation m) : isInvertible m := by
  rw [isPureTranslation_iff] at h
  rw [h]
  refine ⟨by rw [determinant_translation]; exact one_ne_zero, fun v => ?_⟩
  rw [inverse_translation]
  constructor <;> ext <;> simp [Mat4.mulVec, translation, Vec4.scale]


/-! ## The loop of Move -/

theorem moveLoop_devicePos (g : Globals) (vr : VRSystem) :
    ∀ (l : List Nat) (dp : Nat → Vec3), l.Nodup → ∀ j,
      (moveLoop g vr l dp).1 j =
        if j ∈ l ∧ vr.connected j = true then (moveDevice g j (dp j)).1 else dp j := by
  intro l
  induction l with
  | nil => intro dp _ j; simp [moveLoop]
  | cons i rest ih =>
    intro dp hnd j
    obtain ⟨hi, hrest⟩ := List.nodup_cons.mp hnd
    unfold moveLoop
    by_cases hc : vr.connected i = true
    · rw [if_pos hc, ih _ hrest j]
      by_cases hji : j = i
      · subst hji
        simp [hi, hc]
      · simp [hji]
    · rw [if_neg hc, ih _ hrest j]
      by_cases hji : j = i
      · subst hji
        simp [hi, hc]
      · simp [hji]

theorem moveLoop_setWorld (g : Globals) (vr : VRSystem) :
    ∀ (l : List Nat) (dp : Nat → Vec3), l.Nodup → ∀ i v,
      EmulatorCall.setWorldFromDriverTranslationOffset i v ∈ (moveLoop g vr l dp).2 ↔
        i ∈ l ∧ vr.connected i = true ∧ v = (moveDevice g i (dp i)).2 := by
  intro l
  induction l with
  | nil => intro dp _ i v; simp [moveLoop]
  | cons k rest ih =>
    intro dp hnd i v
    obtain ⟨hk, hrest⟩ := List.nodup_cons.mp hnd
    unfold moveLoop
    by_cases hc : vr.connected k = true
    · rw [if_pos hc]
      simp only [List.mem_cons]
      rw [ih _ hrest i v]
      by_cases hik : i = k
      · subst hik
        simp [hk, hc]
      · simp [hik]
    · rw [if_neg hc, ih _ hrest i v]
      by_cases hik : i = k
      · subst hik
        simp [hk, hc]
      · simp [hik]

theorem Move_devicePos (g : Globals) (vr : VRSystem) (j : Nat) :
    (Move g vr).1.devicePos j =
      if j < k_unMaxTrackedDeviceCount ∧ vr.connected j = true then
        (moveDevice g j (g.devicePos j)).1
      else g.devicePos j := by
  have h := moveLoop_devicePos g vr (List.range k_unMaxTrackedDeviceCount) g.devicePos
    (List.nodup_range _) j
  simpa [Move] using h

theorem Move_setWorld (g : Globals) (vr : VRSystem) (i : Nat) (v : Vec3) :
    EmulatorCall.setWorldFromDriverTranslationOffset i v ∈ (Move g vr).2 ↔
      i < k_unMaxTrackedDeviceCount ∧ vr.connected i = true ∧
        v = (moveDevice g i (g.devicePos i)).2 := by
  have h := moveLoop_setWorld g vr (List.range k_unMaxTrackedDeviceCount) g.devicePos
    (List.nodup_range _) i v
  simpa [Move] using h

theorem Move_offset (g : Globals) (vr : VRSystem) :
    (Move g vr).1.offset = g.offset ∧ (Move g vr).1.lastOffset = g.lastOffset ∧
      (Move g vr).1.virtualDeviceIndexes = g.virtualDeviceIndexes :=
  ⟨rfl, rfl, rfl⟩

theorem moveDevice_translation (g : Globals) (a b : Vec3) (i : Nat) (p : Vec3)
    (ha : g.lastOffset = translation a) (hb : g.offset = translation b) :
    moveDevice g i p =
      (p - a + b, if isVirtualDevice g.virtualDeviceIndexes i = true then b.scale (1 / 2) else b) := by
  simp only [moveDevice]
  rw [ha, hb, inverse_translation, mulVec_translation, mulVec_translation]
  split_ifs <;> simp [Vec4.ofVec3, Vec4.toVec3, Vec3.scale] <;> ring_nf <;> simp

theorem moveDevice_virtual_physical (g : Globals) (i j : Nat) (p : Vec3)
    (hi : isVirtualDevice g.virtualDeviceIndexes i = true)
    (hj : isVirtualDevice g.virtualDeviceIndexes j = false) :
    (moveDevice g i p).2 = (moveDevice g j p).2.scale (1 / 2) ∧
      (moveDevice g i p).1 = (moveDevice g j p).1 := by
  simp [moveDevice, hi, hj, Vec3.scale]


/-! ## The claims -/

/-- C1. Idle frame leaves the cumulative offset alone: whatever the globals
(any `offset`, any position samples, any `chaperoneMat`, its translation part
included), if neither hand contributes in `updateOffset` (the role does not
resolve, or pressed buttons AND mask is 0), then afterwards `offset` has its
value from before the call and `lastOffset` equals that same value. -/
theorem C1_idle_frame_keeps_offset (g : Globals) (vr : VRSystem)
    (leftButtonMask rightButtonMask : Nat)
    (hl : vr.leftHand = k_unTrackedDeviceIndexInvalid ∨
      vr.ulButtonPressed vr.leftHand &&& leftButtonMask = 0)
    (hr : vr.rightHand = k_unTrackedDeviceIndexInvalid ∨
      vr.ulButtonPressed vr.rightHand &&& rightButtonMask = 0) :
    (updateOffset g vr leftButtonMask rightButtonMask).offset = g.offset ∧
      (updateOffset g vr leftButtonMask rightButtonMask).lastOffset = g.offset := by
  rw [updateOffset_idle g vr _ _ ((not_handGrabs_iff _ _ _).mpr hl)
    ((not_handGrabs_iff _ _ _).mpr hr)]
  exact ⟨rfl, rfl⟩

/-- C1 at `shiftedGlobals` (offset translated by `(1, 2, 3)`, chaperone matrix
with a rotation and the translation `(5, 6, 7)`) with no button pressed. -/
theorem C1_idle_frame_keeps_offset_witness :
    (sessionVR 0 0).ulButtonPressed (sessionVR 0 0).leftHand &&& 130 = 0 ∧
    (sessionVR 0 0).ulButtonPressed (sessionVR 0 0).rightHand &&& 130 = 0 ∧
    (updateOffset shiftedGlobals (sessionVR 0 0) 130 130).offset = translation ⟨1, 2, 3⟩ ∧
    (updateOffset shiftedGlobals (sessionVR 0 0) 130 130).lastOffset = translation ⟨1, 2, 3⟩ :=
  ⟨by decide, by decide,
    C1_idle_frame_keeps_offset shiftedGlobals (sessionVR 0 0) 130 130
      (Or.inr (by decide)) (Or.inr (by decide))⟩


/-! ### Facts about the concrete session -/

theorem sessionStart_left_grabs :
    handGrabs (sessionVR 128 0) (sessionVR 128 0).leftHand 130 ∧
      ¬ handGrabs (sessionVR 128 0) (sessionVR 128 0).rightHand 130 := by
  decide

theorem updateOffset_single (g : Globals) (vr : VRSystem) (lm rm : Nat) (d : Vec3)
    (hch : g.chaperoneMat = Mat3x4.identity)
    (havg : averagedDelta g vr lm rm = d) (hd : withinClamp d) :
    updateOffset g vr lm rm =
      { g with lastOffset := g.offset, offset := g.offset.translate (-d) } := by
  unfold updateOffset worldDelta clampedDelta
  rw [havg, clamp_of_withinClamp d hd, hch, mulVec_identity_chaperone]

theorem sessionStart_handDelta : handDelta sessionStart 1 = ⟨1 / 20, 0, 0⟩ := by
  simp [handDelta, sessionStart, startup, sessionPos, sessionLastPos]

theorem sessionStart_updateOffset :
    updateOffset sessionStart (sessionVR 128 0) 130 130 =
      { sessionStart with lastOffset := translation ⟨0, 0, 0⟩,
                          offset := translation ⟨-(1 / 20), 0, 0⟩ } := by
  rw [updateOffset_single sessionStart (sessionVR 128 0) 130 130 ⟨1 / 20, 0, 0⟩ rfl
    ((averagedDelta_left _ _ _ _ sessionStart_left_grabs.1 sessionStart_left_grabs.2).trans
      sessionStart_handDelta)
    (by norm_num [withinClamp])]
  have h : sessionStart.offset = translation ⟨0, 0, 0⟩ := rfl
  rw [h, translate_translation]
  norm_num

theorem sessionAfterGrab_offset :
    sessionAfterGrab.offset = translation ⟨-(1 / 20), 0, 0⟩ ∧
      sessionAfterGrab.virtualDeviceIndexes = [3] := by
  unfold sessionAfterGrab
  rw [(Move_offset _ _).1, (Move_offset _ _).2.2, sessionStart_updateOffset]
  exact ⟨rfl, rfl⟩

/-- C2, refuted as stated. The session: in the first frame the left hand grabs
and moves by `(0.05, 0, 0)`, so the offset becomes the translation by
`(-0.05, 0, 0)`. In the second frame no button is pressed; `updateOffset`
then `Move` pass `(-0.05, 0, 0)` for the connected headset (device 0), and do
not pass the zero vector for it. -/
theorem C2_idle_frame_emits_nonzero :
    ¬ handGrabs (sessionVR 0 0) (sessionVR 0 0).leftHand 130 ∧
    ¬ handGrabs (sessionVR 0 0) (sessionVR 0 0).rightHand 130 ∧
    (sessionVR 0 0).connected 0 = true ∧
    EmulatorCall.setWorldFromDriverTranslationOffset 0 ⟨-(1 / 20), 0, 0⟩ ∈
      (Move (updateOffset sessionAfterGrab (sessionVR 0 0) 130 130) (sessionVR 0 0)).2 ∧
    EmulatorCall.setWorldFromDriverTranslationOffset 0 ⟨0, 0, 0⟩ ∉
      (Move (updateOffset sessionAfterGrab (sessionVR 0 0) 130 130) (sessionVR 0 0)).2 := by
  have hl : ¬ handGrabs (sessionVR 0 0) (sessionVR 0 0).leftHand 130 := by decide
  have hr : ¬ handGrabs (sessionVR 0 0) (sessionVR 0 0).rightHand 130 := by decide
  refine ⟨hl, hr, rfl, ?_, ?_⟩
  · rw [Move_setWorld, updateOffset_idle _ _ _ _ hl hr]
    refine ⟨by decide, rfl, ?_⟩
    rw [moveDevice_translation
      { sessionAfterGrab with lastOffset := sessionAfterGrab.offset }
      ⟨-(1 / 20), 0, 0⟩ ⟨-(1 / 20), 0, 0⟩ 0 _
      sessionAfterGrab_offset.1 sessionAfterGrab_offset.1]
    simp [sessionAfterGrab_offset.2, isVirtualDevice]
  · rw [Move_setWorld, updateOffset_idle _ _ _ _ hl hr]
    rintro ⟨-, -, h⟩
    rw [moveDevice_translation
      { sessionAfterGrab with lastOffset := sessionAfterGrab.offset }
      ⟨-(1 / 20), 0, 0⟩ ⟨-(1 / 20), 0, 0⟩ 0 _
      sessionAfterGrab_offset.1 sessionAfterGrab_offset.1] at h
    simp [sessionAfterGrab_offset.2, isVirtualDevice] at h

/-- C2, amended. In exact arithmetic (floats read as rationals, no rounding):
in a frame in which neither hand contributes, with the cumulative offset a
pure translation by `t`, `updateOffset` then `Move` pass
for every connected device exactly one correction: `t` for a physical device
and `t / 2` for a virtual one, whatever the cached positions; and every cached
position is left as it was. -/
theorem C2_idle_frame_emits_cumulative (g : Globals) (vr : VRSystem)
    (leftButtonMask rightButtonMask : Nat) (t : Vec3)
    (hl : vr.leftHand = k_unTrackedDeviceIndexInvalid ∨
      vr.ulButtonPressed vr.leftHand &&& leftButtonMask = 0)
    (hr : vr.rightHand = k_unTrackedDeviceIndexInvalid ∨
      vr.ulButtonPressed vr.rightHand &&& rightButtonMask = 0)
    (ht : g.offset = translation t) :
    (∀ i, i < k_unMaxTrackedDeviceCount → vr.connected i = true → ∀ v,
      (EmulatorCall.setWorldFromDriverTranslationOffset i v ∈
          (Move (updateOffset g vr leftButtonMask rightButtonMask) vr).2 ↔
        v = if isVirtualDevice g.virtualDeviceIndexes i = true then t.scale (1 / 2) else t)) ∧
    (∀ i, (Move (updateOffset g vr leftButtonMask rightButtonMask) vr).1.devicePos i =
      g.devicePos i) := by
  rw [updateOffset_idle g vr _ _ ((not_handGrabs_iff _ _ _).mpr hl)
    ((not_handGrabs_iff _ _ _).mpr hr)]
  have hm : ∀ i p, moveDevice { g with lastOffset := g.offset } i p =
      (p - t + t, if isVirtualDevice g.virtualDeviceIndexes i = true then t.scale (1 / 2) else t) :=
    fun i p => moveDevice_translation _ t t i p ht ht
  constructor
  · intro i hi hc v
    rw [Move_setWorld, hm]
    simp [hi, hc]
  · intro i
    rw [Move_devicePos, hm]
    split_ifs <;> simp

/-- C2 amended, at the second frame of the session (no button pressed, offset
the translation by `(-0.05, 0, 0)`): the headset gets `(-0.05, 0, 0)`, the
virtual tracker half of it, and the cached position of the headset stays. -/
theorem C2_idle_frame_emits_cumulative_witness :
    (sessionVR 0 0).ulButtonPressed (sessionVR 0 0).leftHand &&& 130 = 0 ∧
    (sessionVR 0 0).ulButtonPressed (sessionVR 0 0).rightHand &&& 130 = 0 ∧
    sessionAfterGrab.offset = translation ⟨-(1 / 20), 0, 0⟩ ∧
    EmulatorCall.setWorldFromDriverTranslationOffset 0 ⟨-(1 / 20), 0, 0⟩ ∈
      (Move (updateOffset sessionAfterGrab (sessionVR 0 0) 130 130) (sessionVR 0 0)).2 ∧
    EmulatorCall.setWorldFromDriverTranslationOffset 3 ⟨-(1 / 40), 0, 0⟩ ∈
      (Move (updateOffset sessionAfterGrab (sessionVR 0 0) 130 130) (sessionVR 0 0)).2 ∧
    (Move (updateOffset sessionAfterGrab (sessionVR 0 0) 130 130) (sessionVR 0 0)).1.devicePos 0
      = sessionAfterGrab.devicePos 0 := by
  have h := C2_idle_frame_emits_cumulative sessionAfterGrab (sessionVR 0 0) 130 130
    ⟨-(1 / 20), 0, 0⟩ (Or.inr (by decide)) (Or.inr (by decide)) sessionAfterGrab_offset.1
  refine ⟨by decide, by decide, sessionAfterGrab_offset.1, ?_, ?_, h.2 0⟩
  · rw [h.1 0 (by decide) rfl]
    simp [sessionAfterGrab_offset.2, isVirtualDevice]
  · rw [h.1 3 (by decide) rfl]
    simp [sessionAfterGrab_offset.2, isVirtualDevice, Vec3.scale]
    norm_num

/-- C3. Single-hand grab moves the playspace by the negated hand motion: with
an identity chaperone matrix, exactly one hand grabbing (device `id`) and that
hand's motion `d = devicePos[id] - deviceLastPos[id]` within `[-0.1, 0.1]` on
every axis, `updateOffset` sets `offset` to the previous `offset` translated
by `-d` and `lastOffset` to the previous `offset`; when the previous `offset`
is the pure translation by `t`, the new one is the pure translation by
`t - d`. -/
theorem C3_single_hand_grab (g : Globals) (vr : VRSystem)
    (leftButtonMask rightButtonMask id : Nat)
    (hch : g.chaperoneMat = Mat3x4.identity)
    (hone : (id = vr.leftHand ∧ handGrabs vr vr.leftHand leftButtonMask ∧
          ¬ handGrabs vr vr.rightHand rightButtonMask) ∨
        (id = vr.rightHand ∧ handGrabs vr vr.rightHand rightButtonMask ∧
          ¬ handGrabs vr vr.leftHand leftButtonMask))
    (hd : withinClamp (handDelta g id)) :
    (updateOffset g vr leftButtonMask rightButtonMask).offset =
        g.offset.translate (-(handDelta g id)) ∧
      (updateOffset g vr leftButtonMask rightButtonMask).lastOffset = g.offset ∧
      ∀ t, g.offset = translation t →
        (updateOffset g vr leftButtonMask rightButtonMask).offset =
          translation (t - handDelta g id) := by
  have havg : averagedDelta g vr leftButtonMask rightButtonMask = handDelta g id := by
    rcases hone with ⟨rfl, h1, h2⟩ | ⟨rfl, h1, h2⟩
    · exact averagedDelta_left g vr _ _ h1 h2
    · exact averagedDelta_right g vr _ _ h2 h1
  rw [updateOffset_single g vr _ _ _ hch havg hd]
  refine ⟨rfl, rfl, ?_⟩
  intro t ht
  show g.offset.translate _ = _
  rw [ht, translate_translation]
  simp [sub_eq_add_neg]

/-- C3 at the first frame of the session: from the identity offset, the left
hand grabbing with `d = (0.05, 0, 0)` and the right hand idle give an offset
whose translation is `(-0.05, 0, 0)`, and `lastOffset` the identity. -/
theorem C3_single_hand_grab_witness :
    sessionStart.chaperoneMat = Mat3x4.identity ∧
    handGrabs (sessionVR 128 0) (sessionVR 128 0).leftHand 130 ∧
    ¬ handGrabs (sessionVR 128 0) (sessionVR 128 0).rightHand 130 ∧
    handDelta sessionStart 1 = ⟨1 / 20, 0, 0⟩ ∧
    withinClamp (handDelta sessionStart 1) ∧
    (updateOffset sessionStart (sessionVR 128 0) 130 130).offset =
      translation ⟨-(1 / 20), 0, 0⟩ ∧
    (updateOffset sessionStart (sessionVR 128 0) 130 130).lastOffset = Mat4.identity := by
  have hd : withinClamp (handDelta sessionStart 1) := by
    rw [sessionStart_handDelta]; norm_num [withinClamp]
  have h := C3_single_hand_grab sessionStart (sessionVR 128 0) 130 130 1 rfl
    (Or.inl ⟨rfl, sessionStart_left_grabs.1, sessionStart_left_grabs.2⟩) hd
  refine ⟨rfl, sessionStart_left_grabs.1, sessionStart_left_grabs.2, sessionStart_handDelta,
    hd, ?_, h.2.1⟩
  rw [h.2.2 ⟨0, 0, 0⟩ rfl, sessionStart_handDelta]
  norm_num

/-- C6. Two-hand averaging: when both hands grab, with motions `L` and `R`,
the delta handed to the clamp is `(L + R) / 2` (so it is not `L + R` unless
that sum is zero); when exactly one hand grabs it is that hand's motion,
undivided. -/
theorem C6_two_hand_averaging (g : Globals) (vr : VRSystem)
    (leftButtonMask rightButtonMask : Nat) :
    (handGrabs vr vr.leftHand leftButtonMask → handGrabs vr vr.rightHand rightButtonMask →
      averagedDelta g vr leftButtonMask rightButtonMask =
          (handDelta g vr.leftHand + handDelta g vr.rightHand).divScalar 2 ∧
        (handDelta g vr.leftHand + handDelta g vr.rightHand ≠ 0 →
          averagedDelta g vr leftButtonMask rightButtonMask ≠
            handDelta g vr.leftHand + handDelta g vr.rightHand)) ∧
    (handGrabs vr vr.leftHand leftButtonMask → ¬ handGrabs vr vr.rightHand rightButtonMask →
      averagedDelta g vr leftButtonMask rightButtonMask = handDelta g vr.leftHand) ∧
    (¬ handGrabs vr vr.leftHand leftButtonMask → handGrabs vr vr.rightHand rightButtonMask →
      averagedDelta g vr leftButtonMask rightButtonMask = handDelta g vr.rightHand) ∧
    clampedDelta g vr leftButtonMask rightButtonMask =
      clamp (averagedDelta g vr leftButtonMask rightButtonMask)
        (Vec3.splat (-(1 / 10))) (Vec3.splat (1 / 10)) := by
  refine ⟨?_, averagedDelta_left g vr _ _, averagedDelta_right g vr _ _, rfl⟩
  intro hl hr
  refine ⟨averagedDelta_both g vr _ _ hl hr, ?_⟩
  rw [averagedDelta_both g vr _ _ hl hr]
  intro hne heq
  apply hne
  generalize handDelta g vr.leftHand + handDelta g vr.rightHand = s at heq ⊢
  have hx := congrArg Vec3.x heq
  have hy := congrArg Vec3.y heq
  have hz := congrArg Vec3.z heq
  simp only [Vec3.divScalar] at hx hy hz
  ext
  · show s.x = 0
    linarith
  · show s.y = 0
    linarith
  · show s.z = 0
    linarith

/-- C6 at the session with both grab buttons pressed: `L = (0.05, 0, 0)` and
`R = (0.01, 0.02, 0)` give `(0.03, 0.01, 0)`. -/
theorem C6_two_hand_averaging_witness :
    handGrabs (sessionVR 128 2) (sessionVR 128 2).leftHand 130 ∧
    handGrabs (sessionVR 128 2) (sessionVR 128 2).rightHand 130 ∧
    averagedDelta sessionStart (sessionVR 128 2) 130 130 = ⟨3 / 100, 1 / 100, 0⟩ := by
  have h := (C6_two_hand_averaging sessionStart (sessionVR 128 2) 130 130).1
    (by decide) (by decide)
  refine ⟨by decide, by decide, ?_⟩
  rw [h.1]
  simp [handDelta, sessionStart, startup, sessionPos, sessionLastPos, sessionVR,
    Vec3.divScalar]
  norm_num

/-- C7. Clamp bound: whatever the grabbing hands and the position samples, each
component of the delta that `updateOffset` multiplies by the chaperone matrix
lies in `[-0.1, 0.1]`; it is the component of the averaged delta when that one
is in the range, `0.1` when it is above and `-0.1` when it is below. -/
theorem C7_clamp_bound (g : Globals) (vr : VRSystem) (leftButtonMask rightButtonMask : Nat) :
    clampedTo (averagedDelta g vr leftButtonMask rightButtonMask).x
        (clampedDelta g vr leftButtonMask rightButtonMask).x ∧
      clampedTo (averagedDelta g vr leftButtonMask rightButtonMask).y
        (clampedDelta g vr leftButtonMask rightButtonMask).y ∧
      clampedTo (averagedDelta g vr leftButtonMask rightButtonMask).z
        (clampedDelta g vr leftButtonMask rightButtonMask).z ∧
      (updateOffset g vr leftButtonMask rightButtonMask).offset =
        g.offset.translate
          (-(g.chaperoneMat.mulVec
            (Vec4.ofVec3 (clampedDelta g vr leftButtonMask rightButtonMask) 1).toVec3).toVec3) :=
  ⟨clampScalar_spec _, clampScalar_spec _, clampScalar_spec _, rfl⟩

/-- C9. Translation-only invariant: after any number of frames of
`updateOffset` from the startup values, with any button states, position
samples, masks and chaperone matrices, `offset` and `lastOffset` are pure
translations (identity upper-left block, bottom row `(0, 0, 0, 1)`); each has
determinant `1` and `glm::inverse` is a two-sided inverse of it. -/
theorem C9_translation_only (chaperoneMat : Mat3x4) (devicePos deviceLastPos : Nat → Vec3)
    (frames : List Frame) :
    isPureTranslation (runFrames (startup chaperoneMat devicePos deviceLastPos) frames).offset ∧
    isPureTranslation
      (runFrames (startup chaperoneMat devicePos deviceLastPos) frames).lastOffset ∧
    isInvertible (runFrames (startup chaperoneMat devicePos deviceLastPos) frames).offset ∧
    isInvertible (runFrames (startup chaperoneMat devicePos deviceLastPos) frames).lastOffset := by
  have hid : isPureTranslation Mat4.identity := isPureTranslation_translation ⟨0, 0, 0⟩
  obtain ⟨h1, h2⟩ := runFrames_pure frames (startup chaperoneMat devicePos deviceLastPos)
    hid hid
  exact ⟨h1, h2, isInvertible_of_pure _ h1, isInvertible_of_pure _ h2⟩


/-! ### Repeated Move along a sequence of translations -/

theorem runMoves_translations (vr : VRSystem) (i : Nat)
    (hi : i < k_unMaxTrackedDeviceCount) (hc : vr.connected i = true) :
    ∀ (ts : List Vec3) (g : Globals) (t0 : Vec3), g.offset = translation t0 →
      (runMoves vr g (ts.map translation)).devicePos i =
        g.devicePos i + (t0 :: ts).getLastD 0 - t0 := by
  intro ts
  induction ts with
  | nil =>
    intro g t0 _
    simp [runMoves]
  | cons t rest ih =>
    intro g t0 h0
    simp only [List.map_cons, runMoves]
    rw [ih _ t rfl, Move_devicePos, if_pos ⟨hi, hc⟩,
      moveDevice_translation _ t0 t i _ h0 rfl]
    cases rest <;> ext <;> simp <;> ring

/-- C4. Path independence of Move: start from offset `O_0 = identity` and run
`Move` once per frame along pure translations `O_1, ..., O_N` with
translations `t_1, ..., t_N`, each frame with `lastOffset = O_(f-1)` and
`offset = O_f` and no pose refresh in between. A connected device (physical
or not) whose cached position was `p0` ends with cached position
`p0 + t_N - t_0`, where `t_0 = 0`; so two sequences with the same last
translation end at the same position, whatever their intermediate offsets. -/
theorem C4_path_independence (g : Globals) (vr : VRSystem) (i : Nat) (ts : List Vec3)
    (h0 : g.offset = Mat4.identity)
    (hi : i < k_unMaxTrackedDeviceCount) (hc : vr.connected i = true) :
    (runMoves vr g (ts.map translation)).devicePos i =
        g.devicePos i + ts.getLastD 0 - 0 ∧
      ∀ ts2 : List Vec3, ts2.getLastD 0 = ts.getLastD 0 →
        (runMoves vr g (ts2.map translation)).devicePos i =
          (runMoves vr g (ts.map translation)).devicePos i := by
  have key : ∀ l : List Vec3, (runMoves vr g (l.map translation)).devicePos i =
      g.devicePos i + l.getLastD 0 - 0 := by
    intro l
    rw [runMoves_translations vr i hi hc l g ⟨0, 0, 0⟩ h0]
    cases l <;> simp
  refine ⟨key ts, fun ts2 h2 => ?_⟩
  rw [key ts2, key ts, h2]

/-- C4 on the headset of the session, cached at `(1, 0, 0)`: three frames
through the translations `(1, 0, 0)`, `(5, 5, 5)` and `(-0.05, 0, 0)` leave it
at `(0.95, 0, 0)`. -/
theorem C4_path_independence_witness :
    sessionStart.offset = Mat4.identity ∧
    0 < k_unMaxTrackedDeviceCount ∧
    (sessionVR 0 0).connected 0 = true ∧
    (runMoves (sessionVR 0 0) sessionStart
      ([⟨1, 0, 0⟩, ⟨5, 5, 5⟩, ⟨-(1 / 20), 0, 0⟩].map translation)).devicePos 0 =
        ⟨19 / 20, 0, 0⟩ := by
  refine ⟨rfl, by decide, rfl, ?_⟩
  rw [(C4_path_independence sessionStart (sessionVR 0 0) 0
    [⟨1, 0, 0⟩, ⟨5, 5, 5⟩, ⟨-(1 / 20), 0, 0⟩] rfl (by decide) rfl).1]
  simp [sessionStart, startup, sessionPos]
  norm_num

/-- C5. Virtual half-scale: for an invertible `lastOffset`, any `offset` and
any cached position `p` shared by a connected virtual device `i` and a
connected physical device `j`, `Move` passes exactly one correction for each,
the one of the virtual device being, component by component, one half of the
one of the physical device; the position written back is the same for
both. -/
theorem C5_virtual_half_scale (g : Globals) (vr : VRSystem) (i j : Nat) (p : Vec3)
    (_hdet : g.lastOffset.determinant ≠ 0)
    (hi : i < k_unMaxTrackedDeviceCount) (hj : j < k_unMaxTrackedDeviceCount)
    (ci : vr.connected i = true) (cj : vr.connected j = true)
    (vi : isVirtualDevice g.virtualDeviceIndexes i = true)
    (vj : isVirtualDevice g.virtualDeviceIndexes j = false)
    (hpi : g.devicePos i = p) (hpj : g.devicePos j = p) :
    ∃ c : Vec3,
      (∀ v, EmulatorCall.setWorldFromDriverTranslationOffset j v ∈ (Move g vr).2 ↔ v = c) ∧
      (∀ v, EmulatorCall.setWorldFromDriverTranslationOffset i v ∈ (Move g vr).2 ↔
        v = ⟨c.x * (1 / 2), c.y * (1 / 2), c.z * (1 / 2)⟩) ∧
      (Move g vr).1.devicePos i = (Move g vr).1.devicePos j := by
  obtain ⟨h1, h2⟩ := moveDevice_virtual_physical g i j p vi vj
  refine ⟨(moveDevice g j p).2, ?_, ?_, ?_⟩
  · intro v
    rw [Move_setWorld, hpj]
    simp [hj, cj]
  · intro v
    rw [Move_setWorld, hpi, h1]
    simp [hi, ci, Vec3.scale]
  · rw [Move_devicePos, Move_devicePos, if_pos ⟨hi, ci⟩, if_pos ⟨hj, cj⟩, hpi, hpj, h2]

/-- C5 at the first frame of the session, offset going from the identity to
the translation by `(-0.05, 0, 0)`, headset (device 0) and virtual tracker
(device 3) both cached at `(1, 0, 0)`: the headset gets `(-0.05, 0, 0)`, the
tracker `(-0.025, 0, 0)`, and both are written back at the same position. -/
theorem C5_virtual_half_scale_witness :
    (updateOffset sessionStart (sessionVR 128 0) 130 130).lastOffset.determinant ≠ 0 ∧
    isVirtualDevice
      (updateOffset sessionStart (sessionVR 128 0) 130 130).virtualDeviceIndexes 3 = true ∧
    isVirtualDevice
      (updateOffset sessionStart (sessionVR 128 0) 130 130).virtualDeviceIndexes 0 = false ∧
    EmulatorCall.setWorldFromDriverTranslationOffset 0 ⟨-(1 / 20), 0, 0⟩ ∈
      (Move (updateOffset sessionStart (sessionVR 128 0) 130 130) (sessionVR 128 0)).2 ∧
    EmulatorCall.setWorldFromDriverTranslationOffset 3 ⟨-(1 / 40), 0, 0⟩ ∈
      (Move (updateOffset sessionStart (sessionVR 128 0) 130 130) (sessionVR 128 0)).2 ∧
    (Move (updateOffset sessionStart (sessionVR 128 0) 130 130) (sessionVR 128 0)).1.devicePos 3
      = (Move (updateOffset sessionStart (sessionVR 128 0) 130 130)
          (sessionVR 128 0)).1.devicePos 0 := by
  have hdet : (updateOffset sessionStart (sessionVR 128 0) 130 130).lastOffset.determinant
      ≠ 0 := by
    rw [sessionStart_updateOffset]
    show (translation ⟨0, 0, 0⟩).determinant ≠ 0
    rw [determinant_translation]
    exact one_ne_zero
  have hv3 : isVirtualDevice
      (updateOffset sessionStart (sessionVR 128 0) 130 130).virtualDeviceIndexes 3 = true := by
    rw [sessionStart_updateOffset]; decide
  have hv0 : isVirtualDevice
      (updateOffset sessionStart (sessionVR 128 0) 130 130).virtualDeviceIndexes 0 = false := by
    rw [sessionStart_updateOffset]; decide
  have hp3 : (updateOffset sessionStart (sessionVR 128 0) 130 130).devicePos 3 = ⟨1, 0, 0⟩ := by
    rw [sessionStart_updateOffset]; simp [sessionStart, startup, sessionPos]
  have hp0 : (updateOffset sessionStart (sessionVR 128 0) 130 130).devicePos 0 = ⟨1, 0, 0⟩ := by
    rw [sessionStart_updateOffset]; simp [sessionStart, startup, sessionPos]
  obtain ⟨c, h0, h3, hpos⟩ := C5_virtual_half_scale
    (updateOffset sessionStart (sessionVR 128 0) 130 130) (sessionVR 128 0) 3 0 ⟨1, 0, 0⟩
    hdet (by decide) (by decide) rfl rfl hv3 hv0 hp3 hp0
  have hc : c = ⟨-(1 / 20), 0, 0⟩ := by
    refine ((h0 ⟨-(1 / 20), 0, 0⟩).mp ?_).symm
    rw [Move_setWorld, hp0]
    refine ⟨by decide, rfl, ?_⟩
    rw [moveDevice_translation _ ⟨0, 0, 0⟩ ⟨-(1 / 20), 0, 0⟩ 0 _
      (by rw [sessionStart_updateOffset]) (by rw [sessionStart_updateOffset]), if_neg (by simp [hv0])]
  subst hc
  refine ⟨hdet, hv3, hv0, (h0 _).mpr rfl, (h3 _).mpr ?_, hpos⟩
  norm_num

/-- C8. Registry cache staleness: when the count reported by the injection
service equals the size of the cached list, `updateVirtualDevices` leaves the
list as it is, so `isVirtualDevice` answers as before for every index,
whatever the service would now enumerate; the list changes only on a call
where the reported count differs from the cached size, and when the two differ
as `size_t` values the list is the fresh enumeration. -/
theorem C8_registry_cache_staleness (emu : InputEmulator) (cached : List Nat) :
    (emu.getVirtualDeviceCount = cached.length →
      updateVirtualDevices emu cached = cached ∧
        ∀ i, isVirtualDevice (updateVirtualDevices emu cached) i = isVirtualDevice cached i) ∧
    (updateVirtualDevices emu cached ≠ cached →
      emu.getVirtualDeviceCount ≠ cached.length) ∧
    (toSizeT cached.length ≠ toSizeT emu.getVirtualDeviceCount →
      updateVirtualDevices emu cached = rebuildVirtualDevices emu) := by
  have h1 : emu.getVirtualDeviceCount = cached.length →
      updateVirtualDevices emu cached = cached := by
    intro h
    simp [updateVirtualDevices, h]
  refine ⟨fun h => ⟨h1 h, fun i => by rw [h1 h]⟩, fun hne h => hne (h1 h), fun h => ?_⟩
  simp [updateVirtualDevices, h]

/-- C8 on a same-count swap: the cache holds device 3, the service now reports
one virtual device, device 5. The list stays `[3]`: device 3 is still
classified virtual and device 5 is not, while a rebuild would give `[5]`. -/
theorem C8_registry_cache_staleness_witness :
    sessionEmulator.getVirtualDeviceCount = ([3] : List Nat).length ∧
    rebuildVirtualDevices sessionEmulator = [5] ∧
    updateVirtualDevices sessionEmulator [3] = [3] ∧
    isVirtualDevice (updateVirtualDevices sessionEmulator [3]) 3 = true ∧
    isVirtualDevice (updateVirtualDevices sessionEmulator [3]) 5 = false := by
  have h := ((C8_registry_cache_staleness sessionEmulator [3]).1 rfl)
  refine ⟨rfl, by decide, h.1, ?_, ?_⟩
  · rw [h.2 3]; decide
  · rw [h.2 5]; decide

/-- C10, amended. In exact arithmetic (floats read as rationals, no rounding)
the emitted correction is the absolute cumulative translation: when
`lastOffset` and `offset` are the pure translations by `a` and `b`, the only
correction `Move` passes for a connected device is `b` if it is physical and
`b / 2` if it is virtual, whatever its cached position `p` and whatever `a`;
its cached position becomes `p - a + b`. -/
theorem C10_correction_is_cumulative (g : Globals) (vr : VRSystem) (a b : Vec3)
    (ha : g.lastOffset = translation a) (hb : g.offset = translation b) :
    ∀ i, i < k_unMaxTrackedDeviceCount → vr.connected i = true →
      (∀ v, EmulatorCall.setWorldFromDriverTranslationOffset i v ∈ (Move g vr).2 ↔
        v = if isVirtualDevice g.virtualDeviceIndexes i = true then b.scale (1 / 2) else b) ∧
      (Move g vr).1.devicePos i = g.devicePos i - a + b := by
  intro i hi hc
  constructor
  · intro v
    rw [Move_setWorld, moveDevice_translation g a b i _ ha hb]
    simp [hi, hc]
  · rw [Move_devicePos, if_pos ⟨hi, hc⟩, moveDevice_translation g a b i _ ha hb]

/-- C10 with `a = (1, 2, 3)` and `b = (4, 5, 6)` on the session devices: the
headset at `(1, 0, 0)` gets `(4, 5, 6)` and moves to `(4, 3, 3)`; the virtual
tracker gets `(2, 5/2, 3)`. -/
theorem C10_correction_is_cumulative_witness :
    shiftedMove.lastOffset = translation ⟨1, 2, 3⟩ ∧
    shiftedMove.offset = translation ⟨4, 5, 6⟩ ∧
    EmulatorCall.setWorldFromDriverTranslationOffset 0 ⟨4, 5, 6⟩ ∈
      (Move shiftedMove (sessionVR 0 0)).2 ∧
    EmulatorCall.setWorldFromDriverTranslationOffset 3 ⟨2, 5 / 2, 3⟩ ∈
      (Move shiftedMove (sessionVR 0 0)).2 ∧
    (Move shiftedMove (sessionVR 0 0)).1.devicePos 0 = ⟨4, 3, 3⟩ := by
  have h := C10_correction_is_cumulative shiftedMove (sessionVR 0 0) ⟨1, 2, 3⟩ ⟨4, 5, 6⟩
    rfl rfl
  refine ⟨rfl, rfl, ?_, ?_, ?_⟩
  · rw [(h 0 (by decide) rfl).1]
    simp [shiftedMove, sessionStart, isVirtualDevice]
  · rw [(h 3 (by decide) rfl).1]
    simp [shiftedMove, sessionStart, isVirtualDevice, Vec3.scale]
    norm_num
  · rw [(h 0 (by decide) rfl).2]
    simp [shiftedMove, sessionStart, startup, sessionPos]
    norm_num


/-! ## Binary32 rounding -/

theorem moveDeviceR_id (g : Globals) (i : Nat) (p : Vec3) :
    moveDeviceR id g i p = moveDevice g i p := rfl

theorem int_log_two_eq (q : ℚ) (e : ℤ) (h1 : (2 : ℚ) ^ e ≤ q) (h2 : q < (2 : ℚ) ^ (e + 1)) :
    Int.log 2 q = e := by
  have hpos : 0 < q := lt_of_lt_of_le (zpow_pos (by norm_num) e) h1
  have ha : e ≤ Int.log 2 q :=
    (Int.zpow_le_iff_le_log (by norm_num) hpos).mp (by exact_mod_cast h1)
  have hb : Int.log 2 q < e + 1 :=
    (Int.lt_zpow_iff_log_lt (by norm_num) hpos).mp (by exact_mod_cast h2)
  omega

theorem roundHalfEven_of_lt (q : ℚ) (f : ℤ) (h1 : (f : ℚ) ≤ q) (h2 : q - f < 1 / 2) :
    roundHalfEven q = f := by
  have hf : ⌊q⌋ = f := Int.floor_eq_iff.mpr ⟨h1, by linarith⟩
  simp only [roundHalfEven, hf, if_pos h2]

theorem roundF32_eq (q : ℚ) (e n : ℤ) (h1 : (2 : ℚ) ^ e ≤ |q|) (h2 : |q| < (2 : ℚ) ^ (e + 1))
    (hn : roundHalfEven (q / 2 ^ (e - 23)) = n) : roundF32 q = n * 2 ^ (e - 23) := by
  have hq : q ≠ 0 := by
    intro h
    rw [h, abs_zero] at h1
    exact absurd h1 (not_le.mpr (zpow_pos (by norm_num) e))
  simp only [roundF32, hq, if_false, int_log_two_eq _ e h1 h2, hn]

theorem roundF32_zero : roundF32 0 = 0 := by simp [roundF32]

theorem roundF32_one : roundF32 1 = 1 := by
  have h := roundF32_eq 1 0 8388608 (by norm_num) (by norm_num)
    (roundHalfEven_of_lt _ _ (by norm_num) (by norm_num))
  rw [h]; norm_num

theorem roundF32_neg_one : roundF32 (-1) = -1 := by
  have h := roundF32_eq (-1) 0 (-8388608) (by norm_num) (by norm_num)
    (roundHalfEven_of_lt _ _ (by norm_num) (by norm_num))
  rw [h]; norm_num

theorem roundF32_neg_twentieth :
    roundF32 (-(13421773 / 268435456)) = -(13421773 / 268435456) := by
  have h := roundF32_eq (-(13421773 / 268435456)) (-5) (-13421773)
    (by norm_num [abs_of_neg]) (by norm_num [abs_of_neg])
    (roundHalfEven_of_lt _ _ (by norm_num) (by norm_num))
  rw [h]; norm_num

theorem roundF32_twentieth :
    roundF32 (13421773 / 268435456) = 13421773 / 268435456 := by
  have h := roundF32_eq (13421773 / 268435456) (-5) 13421773
    (by norm_num [abs_of_pos]) (by norm_num [abs_of_pos])
    (roundHalfEven_of_lt _ _ (by norm_num) (by norm_num))
  rw [h]; norm_num

theorem roundF32_one_minus_twentieth :
    roundF32 (255013683 / 268435456) = 15938355 / 16777216 := by
  have h := roundF32_eq (255013683 / 268435456) (-1) 15938355
    (by norm_num [abs_of_pos]) (by norm_num [abs_of_pos])
    (roundHalfEven_of_lt _ _ (by norm_num) (by norm_num))
  rw [h]; norm_num

theorem roundF32_emitted :
    roundF32 (-(838861 / 16777216)) = -(838861 / 16777216) := by
  have h := roundF32_eq (-(838861 / 16777216)) (-5) (-13421776)
    (by norm_num [abs_of_neg]) (by norm_num [abs_of_neg])
    (roundHalfEven_of_lt _ _ (by norm_num) (by norm_num))
  rw [h]; norm_num

theorem moveDeviceF32_headset :
    moveDeviceF32 sessionGrabF32 0 ⟨1, 0, 0⟩ =
      (⟨15938355 / 16777216, 0, 0⟩, ⟨-(838861 / 16777216), 0, 0⟩) := by
  norm_num [moveDeviceF32, moveDeviceR, sessionGrabF32, isVirtualDevice, translation,
    Mat4.inverseR, Mat4.determinantR, Mat4.cofactorsR, Mat4.mulVecR, Vec4.addR, Vec4.subR,
    Vec4.mulR, Vec4.scaleR, Vec4.ofVec3, Vec4.toVec3, roundF32_zero, roundF32_one,
    roundF32_neg_one, roundF32_neg_twentieth, roundF32_one_minus_twentieth,
    roundF32_emitted]

theorem moveDeviceF32_controller :
    moveDeviceF32 sessionGrabF32 1 ⟨13421773 / 268435456, 0, 0⟩ =
      (⟨0, 0, 0⟩, ⟨-(13421773 / 268435456), 0, 0⟩) := by
  norm_num [moveDeviceF32, moveDeviceR, sessionGrabF32, isVirtualDevice, translation,
    Mat4.inverseR, Mat4.determinantR, Mat4.cofactorsR, Mat4.mulVecR, Vec4.addR, Vec4.subR,
    Vec4.mulR, Vec4.scaleR, Vec4.ofVec3, Vec4.toVec3, roundF32_zero, roundF32_one,
    roundF32_neg_one, roundF32_neg_twentieth, roundF32_twentieth]


theorem moveLoopF32_setWorld (g : Globals) (vr : VRSystem) :
    ∀ (l : List Nat) (dp : Nat → Vec3), l.Nodup → ∀ i v,
      EmulatorCall.setWorldFromDriverTranslationOffset i v ∈ (moveLoopF32 g vr l dp).2 ↔
        i ∈ l ∧ vr.connected i = true ∧ v = (moveDeviceF32 g i (dp i)).2 := by
  intro l
  induction l with
  | nil => intro dp _ i v; simp [moveLoopF32]
  | cons k rest ih =>
    intro dp hnd i v
    obtain ⟨hk, hrest⟩ := List.nodup_cons.mp hnd
    unfold moveLoopF32
    by_cases hc : vr.connected k = true
    · rw [if_pos hc]
      simp only [List.mem_cons]
      rw [ih _ hrest i v]
      by_cases hik : i = k
      · subst hik
        simp [hk, hc]
      · simp [hik]
    · rw [if_neg hc, ih _ hrest i v]
      by_cases hik : i = k
      · subst hik
        simp [hk, hc]
      · simp [hik]

theorem MoveF32_setWorld (g : Globals) (vr : VRSystem) (i : Nat) (v : Vec3) :
    EmulatorCall.setWorldFromDriverTranslationOffset i v ∈ (MoveF32 g vr).2 ↔
      i < k_unMaxTrackedDeviceCount ∧ vr.connected i = true ∧
        v = (moveDeviceF32 g i (g.devicePos i)).2 := by
  have h := moveLoopF32_setWorld g vr (List.range k_unMaxTrackedDeviceCount) g.devicePos
    (List.nodup_range _) i v
  simpa [MoveF32] using h

/-- C10, refuted as stated. In binary32, with `lastOffset` the identity
(`a = 0`) and `offset` the pure translation by `b = (-0.05f, 0, 0)`, where
`0.05f = 13421773 / 2 ^ 28`, `Move` passes for the connected physical headset
cached at `(1, 0, 0)` the vector `(-838861 / 2 ^ 24, 0, 0)`, about
`-0.0500000119`, and does not pass `b`: `1 + b` is rounded to
`15938355 / 2 ^ 24` before `1` is subtracted again. In the same frame the
connected physical controller cached at `(0.05f, 0, 0)` is passed `b` itself,
so the emitted value depends on the cached position. -/
theorem C10_correction_depends_on_position :
    sessionGrabF32.lastOffset = translation ⟨0, 0, 0⟩ ∧
    sessionGrabF32.offset = translation ⟨-(13421773 / 268435456), 0, 0⟩ ∧
    isVirtualDevice sessionGrabF32.virtualDeviceIndexes 0 = false ∧
    isVirtualDevice sessionGrabF32.virtualDeviceIndexes 1 = false ∧
    (sessionVR 128 0).connected 0 = true ∧ (sessionVR 128 0).connected 1 = true ∧
    sessionGrabF32.devicePos 0 = ⟨1, 0, 0⟩ ∧
    sessionGrabF32.devicePos 1 = ⟨13421773 / 268435456, 0, 0⟩ ∧
    EmulatorCall.setWorldFromDriverTranslationOffset 0 ⟨-(838861 / 16777216), 0, 0⟩ ∈
      (MoveF32 sessionGrabF32 (sessionVR 128 0)).2 ∧
    EmulatorCall.setWorldFromDriverTranslationOffset 0 ⟨-(13421773 / 268435456), 0, 0⟩ ∉
      (MoveF32 sessionGrabF32 (sessionVR 128 0)).2 ∧
    EmulatorCall.setWorldFromDriverTranslationOffset 1 ⟨-(13421773 / 268435456), 0, 0⟩ ∈
      (MoveF32 sessionGrabF32 (sessionVR 128 0)).2 := by
  have hp0 : sessionGrabF32.devicePos 0 = ⟨1, 0, 0⟩ := by simp [sessionGrabF32]
  have hp1 : sessionGrabF32.devicePos 1 = ⟨13421773 / 268435456, 0, 0⟩ := by
    simp [sessionGrabF32]
  refine ⟨rfl, rfl, by decide, by decide, rfl, rfl, hp0, hp1, ?_, ?_, ?_⟩
  · rw [MoveF32_setWorld, hp0, moveDeviceF32_headset]
    exact ⟨by decide, rfl, rfl⟩
  · rw [MoveF32_setWorld, hp0, moveDeviceF32_headset]
    rintro ⟨-, -, h⟩
    have hx := congrArg Vec3.x h
    norm_num at hx
  · rw [MoveF32_setWorld, hp1, moveDeviceF32_controller]
    exact ⟨by decide, rfl, rfl⟩

end PlayspaceMover
